import Mathlib

/-!
Verification development for the kognit directory-archiving package
(package kognit, main.go). Go strings are modelled as lists of
characters; Go byte slices as lists of naturals; filesystem side
effects as an explicit effect trace. Permission bits are naturals
(0o755 = 493, 0o666 = 438, 0o700 = 448, 0o644 = 420).
-/

/-- Go strings, modelled as their character sequences. -/
abbrev GoStr := List Char

/-- Helper for path.Clean: split a path string at every slash
(structural recursion so the kernel can evaluate it). -/
def splitOnSlashAux : GoStr → GoStr → List GoStr
  | [], cur => [cur.reverse]
  | c :: cs, cur =>
    if c = '/' then cur.reverse :: splitOnSlashAux cs []
    else splitOnSlashAux cs (c :: cur)

/-- Split a path into its slash-separated components. -/
def splitOnSlash (p : GoStr) : List GoStr := splitOnSlashAux p []

/-- Rejoin components with single slashes. -/
def joinSegs : List GoStr → GoStr
  | [] => []
  | [s] => s
  | s :: rest => s ++ '/' :: joinSegs rest

/-- True when the path is rooted (begins with a slash). -/
def isRooted : GoStr → Bool
  | '/' :: _ => true
  | _ => false

/-- One step of the filepath.Clean element loop: a ".." pops the
preceding element, stacks on a leading ".." run of a relative path,
and is dropped at the root of a rooted path; other elements push. -/
def cleanStep (rooted : Bool) (acc : List GoStr) (s : GoStr) : List GoStr :=
  if s = ['.', '.'] then
    match acc with
    | [] => if rooted then [] else [['.', '.']]
    | a :: rest => if a = ['.', '.'] then s :: a :: rest else rest
  else s :: acc

/-- Model of Go filepath.Clean (slash separator): drop empty and "."
elements, resolve ".." lexically, return "." for an empty result of a
relative path. -/
def clean (p : GoStr) : GoStr :=
  if p = [] then ['.']
  else
    let rooted := isRooted p
    let segs := (splitOnSlash p).filter (fun s => !s.isEmpty && s != ['.'])
    let out := (segs.foldl (cleanStep rooted) []).reverse
    let body := joinSegs out
    if rooted then '/' :: body
    else if body = [] then ['.'] else body

/-- Model of Go filepath.Join on two elements: join the non-empty
elements with a slash and Clean the result. -/
def goJoin (a b : GoStr) : GoStr :=
  if a = [] then (if b = [] then [] else clean b)
  else if b = [] then clean a
  else clean (a ++ '/' :: b)

/-- Model of Go filepath.Dir: everything up to the last slash, Cleaned;
"." when there is no slash. -/
def dirPath (p : GoStr) : GoStr :=
  clean ((p.reverse.dropWhile (fun c => c ≠ '/')).reverse)

example : clean "safe/../evil".data = "evil".data := by decide
example : goJoin "safe".data "../evil".data = "evil".data := by decide
example : goJoin "out".data "a/b".data = "out/a/b".data := by decide
example : dirPath "a/b.zip".data = "a".data := by decide
example : dirPath "b.zip".data = ".".data := by decide
example : clean "/a/../..".data = "/".data := by decide

/-- One filesystem object visited by filepath.Walk inside allDirFiles:
its path as reported by the walk, whether its mode is a regular file,
its permission bits and (for regular files) its content bytes. -/
structure WalkEntry where
  path : GoStr
  isRegular : Bool
  mode : Nat
  content : List Nat
deriving DecidableEq

/-- One entry of an archive produced by addToZip or addToTar: name,
mode bits and payload bytes recorded in the per-entry header. -/
structure ArchiveEntry where
  name : GoStr
  mode : Nat
  content : List Nat
deriving DecidableEq

/-- A filesystem side effect performed by the encoder or a reader. -/
inductive Effect where
  | createArchive (path : GoStr) (entries : List ArchiveEntry)
  | mkdirAll (path : GoStr) (mode : Nat)
  | mkdir (path : GoStr) (mode : Nat)
  | createFile (path : GoStr) (mode : Nat) (content : List Nat)
deriving DecidableEq

instance {α β : Type} [DecidableEq α] [DecidableEq β] : DecidableEq (Except α β) :=
  fun a b =>
    match a, b with
    | .error x, .error y =>
      if h : x = y then .isTrue (by rw [h]) else .isFalse (by intro hc; cases hc; exact h rfl)
    | .ok x, .ok y =>
      if h : x = y then .isTrue (by rw [h]) else .isFalse (by intro hc; cases hc; exact h rfl)
    | .error _, .ok _ => .isFalse (by intro hc; cases hc)
    | .ok _, .error _ => .isFalse (by intro hc; cases hc)

/-- main.go lines 166-168: the walk callback appends the visited path
when the mode is NOT a regular file. The walk itself is modelled by
the entry list given in walk order; this is the filter-and-collect it
performs. -/
def allDirFiles (entries : List WalkEntry) : List GoStr :=
  (entries.filter (fun e => !e.isRegular)).map (fun e => e.path)

/-- The walk entries allDirFiles keeps (same filter, before dropping
the metadata that addToZip/addToTar read back from the file). -/
def dirFilesOf (entries : List WalkEntry) : List WalkEntry :=
  entries.filter (fun e => !e.isRegular)

/-- main.go addToZip (lines 77-104): the header is built from the file
into, then header.Name is overwritten with the walk path verbatim, and
the file bytes are copied as the payload. -/
def addToZip (e : WalkEntry) : ArchiveEntry := ⟨e.path, e.mode, e.content⟩

/-- main.go addToTar (lines 132-157): header from FileInfoHeader, then
header.Name = filename verbatim, payload copied. -/
def addToTar (e : WalkEntry) : ArchiveEntry := ⟨e.path, e.mode, e.content⟩

/-- The entry sequence a zip encode writes for the collected files. -/
def zipArchiveEntries (files : List WalkEntry) : List ArchiveEntry :=
  files.map addToZip

/-- The entry sequence a tar encode writes for the collected files. -/
def tarArchiveEntries (files : List WalkEntry) : List ArchiveEntry :=
  files.map addToTar

/-- main.go encodeZipArchive (lines 54-75): a walk failure is returned
to the caller; otherwise the archive file is created at dest and each
collected path is added via addToZip. The walk outcome (the filter
input, or the error filepath.Walk reported) is the second argument. -/
def encodeZipArchive (dest : GoStr) (walk : Except GoStr (List WalkEntry)) :
    Except GoStr (List Effect) :=
  match walk with
  | .error e => .error e
  | .ok entries => .ok [Effect.createArchive dest (zipArchiveEntries (dirFilesOf entries))]

/-- main.go encodeTarArchive (lines 106-130): line 109 returns nil —
not err — when the walk fails, so the error is swallowed and nothing
is created; otherwise the archive is created at dest with addToTar
entries. -/
def encodeTarArchive (dest : GoStr) (walk : Except GoStr (List WalkEntry)) :
    Except GoStr (List Effect) :=
  match walk with
  | .error _ => .ok []
  | .ok entries => .ok [Effect.createArchive dest (tarArchiveEntries (dirFilesOf entries))]

/-- The format tags of main.go lines 31-34 (a Go int). -/
def ZIP : Int := 0

/-- The tar+gzip format tag. -/
def TAR : Int := 1

/-- main.go DirectoryCompressionAlgorithm.Encode (lines 36-52): switch
on the tag, append ".zip" or ".tar.gz" to src and call the matching
encoder; a tag outside the switch falls through and returns nil. -/
def dirEncode (a : Int) (src : GoStr) (walk : Except GoStr (List WalkEntry)) :
    Except GoStr (List Effect) :=
  if a = ZIP then encodeZipArchive (src ++ ".zip".data) walk
  else if a = TAR then encodeTarArchive (src ++ ".tar.gz".data) walk
  else .ok []

/-- One entry read from a zip archive: name, mode bits, directory
flag, decompressed payload bytes. -/
structure ZipEntry where
  name : GoStr
  mode : Nat
  isDir : Bool
  content : List Nat
deriving DecidableEq

/-- main.go extractFromZip (lines 209-239): join dest with the entry
name, reject with "illegal file path" unless the joined path starts
with Clean(dest) + "/", then MkdirAll for a directory entry or
MkdirAll the parent and create the file with the entry mode (the
OpenFile perm argument is f.Mode()). -/
def extractFromZip (f : ZipEntry) (dest : GoStr) : Except GoStr (List Effect) :=
  let path := goJoin dest f.name
  if !((clean dest ++ ['/']).isPrefixOf path) then
    .error ("illegal file path: ".data ++ path)
  else if f.isDir then
    .ok [Effect.mkdirAll path f.mode]
  else
    .ok [Effect.mkdirAll (dirPath path) f.mode,
         Effect.createFile path f.mode f.content]

/-- The extraction loop of decodeZipArchive (lines 199-204): entries in
archive order, stopping at the first extraction error; the pair is the
accumulated effect trace and the error returned, if any. -/
def zipLoop (dest : GoStr) : List ZipEntry → List Effect → List Effect × Option GoStr
  | [], acc => (acc, none)
  | e :: es, acc =>
    match extractFromZip e dest with
    | .error msg => (acc, some msg)
    | .ok effs => zipLoop dest es (acc ++ effs)

/-- main.go decodeZipArchive (lines 190-207): MkdirAll(dest, 0755) and
then the per-entry loop. The entries parsed from the archive at src
are the first argument. -/
def decodeZipArchive (entries : List ZipEntry) (dest : GoStr) : List Effect × Option GoStr :=
  zipLoop dest entries [Effect.mkdirAll dest 493]

/-- One tar header with its payload: name, raw type flag byte, the
recorded mode bits and the following payload bytes. tar.TypeReg is the
byte of the character 0 (48) and tar.TypeDir the byte of 5 (53). -/
structure TarHeader where
  name : GoStr
  typeflag : Nat
  mode : Nat
  content : List Nat
deriving DecidableEq

/-- main.go extractFromTar (lines 274-295): switch on the type flag;
a directory is created at header.Name — not joined with dest — with
fixed mode 0755; a regular file is created at header.Name via
os.Create (perm 0666) and the payload copied; any other flag returns
the constant error "Unknown header type". The dest argument is unused
by the code. -/
def extractFromTar (h : TarHeader) (dest : GoStr) : Except GoStr (List Effect) :=
  if h.typeflag = 53 then .ok [Effect.mkdir h.name 493]
  else if h.typeflag = 48 then .ok [Effect.createFile h.name 438 h.content]
  else .error "Unknown header type".data

/-- The header loop of decodeTarArchive (lines 256-269): headers in
stream order, stopping at the first extraction error. -/
def tarLoop (dest : GoStr) : List TarHeader → List Effect → List Effect × Option GoStr
  | [], acc => (acc, none)
  | h :: hs, acc =>
    match extractFromTar h dest with
    | .error msg => (acc, some msg)
    | .ok effs => tarLoop dest hs (acc ++ effs)

/-- main.go decodeTarArchive (lines 241-272): open the stream, wrap in
gzip, iterate headers until EOF or the first error. The headers parsed
from the archive at src are the first argument. -/
def decodeTarArchive (headers : List TarHeader) (dest : GoStr) : List Effect × Option GoStr :=
  tarLoop dest headers []

/-- main.go DirectoryCompressionAlgorithm.Decode (lines 175-188):
dest is filepath.Dir(src); switch on the tag with no default branch,
so an out-of-range tag does nothing and returns nil. The archive
content at src is given per format as zipEntries / tarHeaders. -/
def dirDecode (a : Int) (src : GoStr) (zipEntries : List ZipEntry)
    (tarHeaders : List TarHeader) : List Effect × Option GoStr :=
  let dest := dirPath src
  if a = ZIP then decodeZipArchive zipEntries dest
  else if a = TAR then decodeTarArchive tarHeaders dest
  else ([], none)

/-- main.go FileCompressionAlgorithm.Encode (lines 305-319): switch on
the tag printing a message, then return nil unconditionally. The
result is the printed lines paired with the returned error value.
Tags: Flate 0, Gzip 1, Huffman 2, LZW 3, RLE 4. -/
def fileEncode (a : Int) (dataPath : GoStr) : List GoStr × Except GoStr Unit :=
  (if a = 0 then ["File encoding using Flate".data]
   else if a = 1 then ["File encoding using Gzip".data]
   else if a = 2 then ["File encoding using Huffman".data]
   else if a = 3 then ["File encoding using LZW".data]
   else if a = 4 then ["File encoding using RLE".data]
   else [], .ok ())

/-- main.go FileCompressionAlgorithm.Decode (lines 321-335). -/
def fileDecode (a : Int) (dataPath : GoStr) : List GoStr × Except GoStr Unit :=
  (if a = 0 then ["File decoding using Flate".data]
   else if a = 1 then ["File decoding using Gzip".data]
   else if a = 2 then ["File decoding using Huffman".data]
   else if a = 3 then ["File decoding using LZW".data]
   else if a = 4 then ["File decoding using RLE".data]
   else [], .ok ())

/-- main.go ImageCompressionAlgorithm.Encode (lines 344-356). Tags:
JPEG 0, JPEG2000 1, PNG 2, GIF 3. -/
def imageEncode (a : Int) (dataPath : GoStr) : List GoStr × Except GoStr Unit :=
  (if a = 0 then ["File encoding using JPEG".data]
   else if a = 1 then ["File encoding using JPEG2000".data]
   else if a = 2 then ["File encoding using PNG".data]
   else if a = 3 then ["File encoding using GIF".data]
   else [], .ok ())

/-- main.go ImageCompressionAlgorithm.Decode (lines 358-370). -/
def imageDecode (a : Int) (dataPath : GoStr) : List GoStr × Except GoStr Unit :=
  (if a = 0 then ["File decoding using JPEG".data]
   else if a = 1 then ["File decoding using JPEG2000".data]
   else if a = 2 then ["File decoding using PNG".data]
   else if a = 3 then ["File decoding using GIF".data]
   else [], .ok ())

/-- Written from the words of §3 of the spec, for comparison with the
readers: a name is within the destination root when the joined,
normalized path still starts with Clean(dest) followed by the
separator. -/
def withinRoot (dest name : GoStr) : Bool :=
  (clean dest ++ ['/']).isPrefixOf (goJoin dest name)

/-- Once the zip extraction loop reaches an entry that extracts to an
error, the remaining entries are irrelevant and the loop reports an
error: the run over any tail equals the run that ends at the failing
entry, and the reported error is present. -/
theorem zipLoop_stops (dest : GoStr) (e : ZipEntry) (msg : GoStr)
    (h : extractFromZip e dest = .error msg) :
    ∀ (es₁ es₂ : List ZipEntry) (acc : List Effect),
      zipLoop dest (es₁ ++ e :: es₂) acc = zipLoop dest (es₁ ++ [e]) acc ∧
      (zipLoop dest (es₁ ++ e :: es₂) acc).2.isSome := by
  intro es₁
  induction es₁ with
  | nil =>
    intro es₂ acc
    simp [zipLoop, h]
  | cons e₀ es ih =>
    intro es₂ acc
    simp only [List.cons_append, zipLoop]
    cases hx : extractFromZip e₀ dest with
    | error m => exact ⟨rfl, rfl⟩
    | ok effs => exact ih es₂ (acc ++ effs)

/-- Once the tar header loop reaches a header that extracts to an
error, the remaining headers are irrelevant and the loop reports an
error. -/
theorem tarLoop_stops (dest : GoStr) (h : TarHeader) (msg : GoStr)
    (he : extractFromTar h dest = .error msg) :
    ∀ (hs₁ hs₂ : List TarHeader) (acc : List Effect),
      tarLoop dest (hs₁ ++ h :: hs₂) acc = tarLoop dest (hs₁ ++ [h]) acc ∧
      (tarLoop dest (hs₁ ++ h :: hs₂) acc).2.isSome := by
  intro hs₁
  induction hs₁ with
  | nil =>
    intro hs₂ acc
    simp [tarLoop, he]
  | cons h₀ hs ih =>
    intro hs₂ acc
    simp only [List.cons_append, tarLoop]
    cases hx : extractFromTar h₀ dest with
    | error m => exact ⟨rfl, rfl⟩
    | ok effs => exact ih hs₂ (acc ++ effs)

/-- Claim C1: the claim requires the tar+gzip reader to route every
entry name through the same destination-root validation as the ZIP
reader. The code does not: extractFromTar creates the file at
header.Name verbatim, ignoring the destination root. At the concrete
name "../evil" with destination "safe", the tar extraction succeeds
and writes outside the root (the §3 within-root check fails for that
name), while the ZIP extraction of the very same name is rejected with
"illegal file path". -/
theorem tar_reader_skips_root_validation :
    extractFromTar ⟨"../evil".data, 48, 420, [7]⟩ "safe".data
      = .ok [Effect.createFile "../evil".data 438 [7]] ∧
    withinRoot "safe".data "../evil".data = false ∧
    extractFromZip ⟨"../evil".data, 420, false, [7]⟩ "safe".data
      = .error "illegal file path: evil".data ∧
    decodeTarArchive [⟨"../evil".data, 48, 420, [7]⟩] "safe".data
      = ([Effect.createFile "../evil".data 438 [7]], none) := by decide

/-- Claim C2: round-trip identity fails because the walk callback in
allDirFiles collects a path exactly when its mode is NOT a regular
file, so every regular file is omitted from the archive. For the tree
with directory "d" and regular file "d/a.txt" (content bytes
[104, 105]), both encoders produce an archive whose only entry is the
directory "d": the file name and its bytes never reach the archive,
so no decode can reproduce the tree. -/
theorem walk_filter_drops_regular_files :
    allDirFiles [⟨"d".data, false, 493, []⟩, ⟨"d/a.txt".data, true, 420, [104, 105]⟩]
      = ["d".data] ∧
    dirEncode ZIP "d".data
        (.ok [⟨"d".data, false, 493, []⟩, ⟨"d/a.txt".data, true, 420, [104, 105]⟩])
      = .ok [Effect.createArchive "d.zip".data [⟨"d".data, 493, []⟩]] ∧
    dirEncode TAR "d".data
        (.ok [⟨"d".data, false, 493, []⟩, ⟨"d/a.txt".data, true, 420, [104, 105]⟩])
      = .ok [Effect.createArchive "d.tar.gz".data [⟨"d".data, 493, []⟩]] := by decide

/-- Claim C3: when the walk fails (root missing or unreadable), the
ZIP encoder propagates the error and creates nothing, but the tar
encoder returns nil at line 109 instead of the error: the tar encode
reports success while creating no archive at all, contradicting the
claim that Encode fails with a filesystem error for both formats. -/
theorem tar_encode_swallows_walk_error (src msg : GoStr) :
    dirEncode ZIP src (.error msg) = .error msg ∧
    dirEncode TAR src (.error msg) = .ok [] := by
  constructor
  · simp [dirEncode, ZIP, encodeZipArchive]
  · simp [dirEncode, ZIP, TAR, encodeZipArchive, encodeTarArchive]

/-- Claim C4: an entry failing the path-escape check aborts the whole
zip decode: the result over any list that continues past the failing
entry equals the result of the run that stops at that entry — the
later entries contribute no effects and are never examined — and the
decode reports an error. -/
theorem zip_decode_aborts_on_escape (dest : GoStr) (es₁ es₂ : List ZipEntry)
    (e : ZipEntry) (msg : GoStr) (h : extractFromZip e dest = .error msg) :
    decodeZipArchive (es₁ ++ e :: es₂) dest = decodeZipArchive (es₁ ++ [e]) dest ∧
    (decodeZipArchive (es₁ ++ e :: es₂) dest).2.isSome := by
  unfold decodeZipArchive
  exact zipLoop_stops dest e msg h es₁ es₂ _

/-- Witness for C4: a concrete archive with a good entry, a traversal
entry "../evil" and a later entry; the decode equals the run that
stops at the traversal entry and reports an error. -/
theorem zip_decode_aborts_on_escape_witness :
    decodeZipArchive
        ([⟨"ok.txt".data, 420, false, [1]⟩] ++
          (⟨"../evil".data, 420, false, [2]⟩ : ZipEntry) ::
            [⟨"later.txt".data, 420, false, [3]⟩]) "out".data
      = decodeZipArchive
          ([⟨"ok.txt".data, 420, false, [1]⟩] ++ [⟨"../evil".data, 420, false, [2]⟩])
          "out".data ∧
    (decodeZipArchive
        ([⟨"ok.txt".data, 420, false, [1]⟩] ++
          (⟨"../evil".data, 420, false, [2]⟩ : ZipEntry) ::
            [⟨"later.txt".data, 420, false, [3]⟩]) "out".data).2.isSome :=
  zip_decode_aborts_on_escape "out".data [⟨"ok.txt".data, 420, false, [1]⟩]
    [⟨"later.txt".data, 420, false, [3]⟩] ⟨"../evil".data, 420, false, [2]⟩
    "illegal file path: evil".data (by decide)



/-- Counterexample for C5: the decode does fail on an unknown type
flag, but the error cannot be "naming the unknown kind": the message
is the constant "Unknown header type" for every unknown flag — two
distinct unknown flags (the bytes of the characters x and A) produce
byte-identical messages, and the message does not even contain the
character of the offending flag. -/
theorem tar_unknown_kind_unnamed :
    extractFromTar ⟨"a.bin".data, 120, 420, []⟩ "out".data
      = .error "Unknown header type".data ∧
    extractFromTar ⟨"b.bin".data, 65, 420, []⟩ "out".data
      = .error "Unknown header type".data ∧
    ("Unknown header type".data.contains 'x') = false ∧
    ("Unknown header type".data.contains 'A') = false := by decide

/-- Claim C5 (amended): for every tar header whose type flag is
neither the directory flag (53) nor the regular-file flag (48),
extraction fails with the constant error "Unknown header type" — the
entry is not silently skipped, and a decode whose stream contains such
a header reports an error — but the error does not name the unknown
kind. -/
theorem tar_unknown_type_fails_decode (h : TarHeader) (dest : GoStr)
    (hs₁ hs₂ : List TarHeader) (h5 : h.typeflag ≠ 53) (h0 : h.typeflag ≠ 48) :
    extractFromTar h dest = .error "Unknown header type".data ∧
    (decodeTarArchive (hs₁ ++ h :: hs₂) dest).2.isSome := by
  have he : extractFromTar h dest = .error "Unknown header type".data := by
    unfold extractFromTar
    rw [if_neg h5, if_neg h0]
  refine ⟨he, ?_⟩
  unfold decodeTarArchive
  exact (tarLoop_stops dest h _ he hs₁ hs₂ []).2

/-- Witness for C5: a PAX-style header with type flag 120 after one
good directory header fails the decode. -/
theorem tar_unknown_type_fails_decode_witness :
    extractFromTar ⟨"p.pax".data, 120, 420, []⟩ "out".data
      = .error "Unknown header type".data ∧
    (decodeTarArchive
        ([⟨"d".data, 53, 493, []⟩] ++
          (⟨"p.pax".data, 120, 420, []⟩ : TarHeader) :: []) "out".data).2.isSome :=
  tar_unknown_type_fails_decode ⟨"p.pax".data, 120, 420, []⟩ "out".data
    [⟨"d".data, 53, 493, []⟩] [] (by decide) (by decide)

/-- Claim C6: for every source path, the ZIP encode writes its archive
at src ++ ".zip" and the tar+gzip encode writes its archive at
src ++ ".tar.gz", each containing the entries collected from the walk. -/
theorem encode_dest_has_format_suffix (src : GoStr) (files : List WalkEntry) :
    dirEncode ZIP src (.ok files)
      = .ok [Effect.createArchive (src ++ ".zip".data)
              (zipArchiveEntries (dirFilesOf files))] ∧
    dirEncode TAR src (.ok files)
      = .ok [Effect.createArchive (src ++ ".tar.gz".data)
              (tarArchiveEntries (dirFilesOf files))] := by
  constructor
  · simp [dirEncode, ZIP, encodeZipArchive]
  · simp [dirEncode, ZIP, TAR, encodeZipArchive, encodeTarArchive]

/-- Counterexample for C7: a walk of root "d" reports the subdirectory
as "d/sub"; addToZip stores that walk path verbatim as the header
name, so the entry name carries the root prefix and is not the
root-relative path "sub". -/
theorem zip_header_name_keeps_root :
    zipArchiveEntries (dirFilesOf
        [⟨"d".data, false, 493, []⟩, ⟨"d/sub".data, false, 493, []⟩])
      = [⟨"d".data, 493, []⟩, ⟨"d/sub".data, 493, []⟩] ∧
    ("d/sub".data ≠ "sub".data) := by decide

/-- Claim C7 (amended): every per-entry header written by the ZIP
writer carries as its name exactly the walk path of the collected
entry — the path filepath.Walk reported, root prefix and host
separators included — not a path made relative to the archived root. -/
theorem zip_header_names_are_walk_paths (entries : List WalkEntry) :
    (zipArchiveEntries (dirFilesOf entries)).map ArchiveEntry.name
      = allDirFiles entries := by
  simp [zipArchiveEntries, dirFilesOf, allDirFiles, List.map_map]
  intro a _ _
  rfl

/-- Counterexample for C8: a tar directory header recording mode 0700
(448) is extracted with os.Mkdir(header.Name, 0755): the directory is
created with mode 493, not the recorded 448. -/
theorem tar_dir_mode_not_preserved :
    extractFromTar ⟨"d".data, 53, 448, []⟩ "out".data
      = .ok [Effect.mkdir "d".data 493] ∧
    (448 : Nat) ≠ 493 := by decide

/-- Claim C8 (amended): the ZIP reader creates each regular file whose
path passes the root check with the permission bits recorded in its
entry header, while the tar+gzip reader creates every directory with
the fixed mode 0755 (493) regardless of the bits recorded in its
header. -/
theorem extract_permission_bits (f : ZipEntry) (dest : GoStr) (h : TarHeader)
    (hdir : f.isDir = false)
    (hok : (clean dest ++ ['/']).isPrefixOf (goJoin dest f.name) = true)
    (ht : h.typeflag = 53) :
    extractFromZip f dest
      = .ok [Effect.mkdirAll (dirPath (goJoin dest f.name)) f.mode,
             Effect.createFile (goJoin dest f.name) f.mode f.content] ∧
    extractFromTar h dest = .ok [Effect.mkdir h.name 493] := by
  constructor
  · unfold extractFromZip
    simp [hok, hdir]
  · unfold extractFromTar
    rw [if_pos ht]

/-- Witness for C8: a regular zip entry with mode 0640 (416) is
created with mode 416, and a tar directory header with mode 0700
(448) is created with 493. -/
theorem extract_permission_bits_witness :
    extractFromZip ⟨"a.txt".data, 416, false, [9]⟩ "out".data
      = .ok [Effect.mkdirAll (dirPath (goJoin "out".data "a.txt".data)) 416,
             Effect.createFile (goJoin "out".data "a.txt".data) 416 [9]] ∧
    extractFromTar ⟨"d".data, 53, 448, []⟩ "out".data
      = .ok [Effect.mkdir "d".data 493] :=
  extract_permission_bits ⟨"a.txt".data, 416, false, [9]⟩ "out".data
    ⟨"d".data, 53, 448, []⟩ (by decide) (by decide) (by decide)

/-- Claim C9: for every tag and path, the single-file and image codec
stubs return nil — success — after printing a message; none returns a
not-yet-implemented error. At the Flate tag the printed line is "File
encoding using Flate" and the returned value is success. -/
theorem codec_stubs_return_success (a : Int) (p : GoStr) :
    (fileEncode a p).2 = .ok () ∧ (fileDecode a p).2 = .ok () ∧
    (imageEncode a p).2 = .ok () ∧ (imageDecode a p).2 = .ok () ∧
    fileEncode 0 p = (["File encoding using Flate".data], .ok ()) := by
  refine ⟨rfl, rfl, rfl, rfl, ?_⟩
  simp [fileEncode]

/-- Claim C10: a DirectoryCompressionAlgorithm tag other than ZIP and
TAR hits no case of either switch: Encode returns success performing
no effect, and Decode returns success performing no effect. -/
theorem out_of_range_tag_is_silent_noop (a : Int) (src : GoStr)
    (walk : Except GoStr (List WalkEntry)) (zs : List ZipEntry)
    (ts : List TarHeader) (h0 : a ≠ ZIP) (h1 : a ≠ TAR) :
    dirEncode a src walk = .ok [] ∧ dirDecode a src zs ts = ([], none) := by
  constructor
  · simp [dirEncode, h0, h1]
  · simp [dirDecode, h0, h1]

/-- Witness for C10: the out-of-range tag 5 encodes and decodes to
success with no effects. -/
theorem out_of_range_tag_is_silent_noop_witness :
    dirEncode 5 "d".data (.ok []) = .ok [] ∧
    dirDecode 5 "d.zip".data [] [] = ([], none) :=
  out_of_range_tag_is_silent_noop 5 "d".data (.ok []) [] [] (by decide) (by decide)
